import Mathlib

/-!
# Verification of the `reissue` recurring-task scheduler

A shallow embedding of `lib/index.js` (the `Reissue` class) together with a
small operational model of the hosting event loop (armed timers, a clock, and
the task's completion continuation), over which the specification's claims are
settled.

Modelling conventions:
* JavaScript numbers that hold millisecond durations/timestamps are `Int`.
* `setTimeout` arms a `Timer` record carrying the delay that was passed, the
  absolute due time, and whether `.unref()` was called on the handle; timer
  handles are fresh `Nat` ids.  `clearTimeout` removes the timer with the
  given id (a no-op once the timer has fired, as in Node).
* Event emission (`emit`) appends to a ghost event log; listeners are external
  and are not modelled re-entrantly.
* `execCount` is a ghost counter of how many invocations have begun
  (increments each time `_execute` runs).
* The `setImmediate` indirection inside `_execute` is folded into `_execute`
  itself: after `_execute`, the task is considered running (`inUserFunc`),
  and its eventual call of the completion continuation is a separate
  `Step.doneCall` in the event-loop step relation.
-/

namespace Reissue

/-- A JavaScript value, as far as truthiness and identity of the failure value
passed to the completion continuation are concerned. -/
inductive JSValue where
  | undef
  | null
  | bool (b : Bool)
  | num (n : Int)
  | str (s : String)
  | obj (id : Nat)
  deriving DecidableEq, Repr

/-- JavaScript truthiness for the modelled values (`NaN` is not modelled;
numbers are integral). -/
def truthy : JSValue → Bool
  | JSValue.undef => false
  | JSValue.null => false
  | JSValue.bool b => b
  | JSValue.num n => n != 0
  | JSValue.str s => s != ""
  | JSValue.obj _ => true

/-- The three topics of the event channel. -/
inductive Event where
  | error (v : JSValue)
  | stop
  | timeout
  deriving DecidableEq, Repr

/-- The two kinds of timer the scheduler arms: the next-invocation timer
(`_nextHandlerId`) and the stall/timeout timer (`_timeoutHandlerId`). -/
inductive TimerKind where
  | nextInvocation
  | stall
  deriving DecidableEq, Repr

/-- An armed (not yet fired, not yet cleared) timer in the event loop. -/
structure Timer where
  id : Nat
  kind : TimerKind
  delay : Int
  dueAt : Int
  unrefd : Bool
  deriving DecidableEq, Repr

/-- The `interval` option: a number or a function of the elapsed time. -/
inductive IntervalOpt where
  | num (n : Int)
  | fn (f : Int → Int)

/-- The options accepted by `create` that affect scheduling (`func`, `context`
and `args` configure the external task and are not scheduling-relevant). -/
structure Opts where
  interval : IntervalOpt
  timeout : Option Int
  unref : Option Bool

/-- Constructor normalization of `interval`: a numeric interval is wrapped in
a constant function (`_returnInterval`). -/
def normalizeInterval : IntervalOpt → (Int → Int)
  | IntervalOpt.num n => fun _ => n
  | IntervalOpt.fn f => f

/-- Constructor normalization `self._timeoutMs = opts.timeout || null`:
a falsy timeout (absent, or `0`) becomes `null`. -/
def jsOrNull : Option Int → Option Int
  | none => none
  | some v => if v != 0 then some v else none

/-- The whole modelled system: the `Reissue` instance's fields, the armed
timers of the event loop, the clock, and ghost observation logs. -/
structure World where
  /-- `self._interval` after constructor normalization. -/
  intervalFn : Int → Int
  /-- `self._timeoutMs` (`opts.timeout || null`). -/
  timeoutMs : Option Int
  /-- `self._unref`. -/
  unref : Bool
  /-- `self._active`. -/
  active : Bool
  /-- `self._inUserFunc`. -/
  inUserFunc : Bool
  /-- `self._startTime`. -/
  startTime : Int
  /-- `self._nextHandlerId` (id of the armed next-invocation timer, if any;
  may be stale after the timer fired, as in the source). -/
  nextHandlerId : Option Nat
  /-- `self._timeoutHandlerId` (id of the armed stall timer, if any). -/
  timeoutHandlerId : Option Nat
  /-- the event loop's armed timers. -/
  timers : List Timer
  /-- fresh-id supply for timer handles. -/
  nextTimerId : Nat
  /-- the clock (`Date.now()`). -/
  now : Int
  /-- ghost log of emitted events, in emission order. -/
  events : List Event
  /-- ghost count of invocations begun (`_execute` runs). -/
  execCount : Nat

/-- `setTimeout(cb, delay)`: arm a fresh timer; `.unref()` has not been called
on it. Returns the new world and the timer handle. -/
def setTimeoutW (w : World) (k : TimerKind) (delay : Int) : World × Nat :=
  ({ w with
      timers := w.timers ++ [⟨w.nextTimerId, k, delay, w.now + delay, false⟩],
      nextTimerId := w.nextTimerId + 1 }, w.nextTimerId)

/-- `clearTimeout(handle)`: removes the armed timer with this id, if any
(no-op if it already fired). -/
def clearTimeoutW (w : World) (id : Nat) : World :=
  { w with timers := w.timers.filter (fun t => t.id != id) }

/-- `handle.unref()`: mark the timer with this id as detached. -/
def unrefTimer (w : World) (id : Nat) : World :=
  { w with
      timers := w.timers.map
        (fun t => if t.id = id then { t with unrefd := true } else t) }

/-- `self.emit(e)`: append to the ghost event log. -/
def emit (w : World) (e : Event) : World :=
  { w with events := w.events ++ [e] }

/-- The constructor (`create` / `new Reissue(opts)`), at clock time `t0`. -/
def create (o : Opts) (t0 : Int) : World :=
  { intervalFn := normalizeInterval o.interval
    timeoutMs := jsOrNull o.timeout
    unref := o.unref == some true
    active := false
    inUserFunc := false
    startTime := 0
    nextHandlerId := none
    timeoutHandlerId := none
    timers := []
    nextTimerId := 0
    now := t0
    events := []
    execCount := 0 }

/-- `Reissue.prototype._execute`: record the invocation start time, enter the
user function, and, when a stall threshold is configured, arm the stall timer
(unref'd when the `unref` option is set). -/
def execute (w : World) : World :=
  let w1 := { w with
      startTime := w.now
      inUserFunc := true
      execCount := w.execCount + 1 }
  match w1.timeoutMs with
  | none => w1
  | some ms =>
      let p := setTimeoutW w1 TimerKind.stall ms
      let w2 := { p.1 with timeoutHandlerId := some p.2 }
      if w2.unref then unrefTimer w2 p.2 else w2

/-- `Reissue.prototype._onTimeout`: the stall timer fired; emit `timeout`
only while still active. -/
def onTimeout (w : World) : World :=
  if w.active then emit w Event.timeout else w

/-- `Reissue.prototype._stop`: clear the next-invocation timer, if armed,
and emit `stop`. (Note: the source does not touch `_active` here.) -/
def stopInternal (w : World) : World :=
  let w1 :=
    match w.nextHandlerId with
    | some id => { clearTimeoutW w id with nextHandlerId := none }
    | none => w
  emit w1 Event.stop

/-- `Reissue.prototype._done err`: the completion continuation. Computes the
elapsed time and the interval for this invocation, leaves the user function,
re-emits a truthy error, clears the stall timer, and then either terminates
(stop was requested: `_active === false`) or arms the next invocation with
catch-up semantics. -/
def done (w : World) (err : JSValue) : World :=
  let elapsedTime := w.now - w.startTime
  let interval := w.intervalFn elapsedTime
  let w1 := { w with inUserFunc := false, nextHandlerId := none }
  let w2 := if truthy err then emit w1 (Event.error err) else w1
  -- _internalDone
  let w3 :=
    match w2.timeoutHandlerId with
    | some id => { clearTimeoutW w2 id with timeoutHandlerId := none }
    | none => w2
  if w3.active = false then
    stopInternal w3
  else
    let timeToInvocation := if elapsedTime ≥ interval then 0 else interval - elapsedTime
    let p := setTimeoutW w3 TimerKind.nextInvocation timeToInvocation
    let w4 := { p.1 with nextHandlerId := some p.2 }
    if w4.unref then unrefTimer w4 p.2 else w4

/-- `Reissue.prototype.start delay`: throws (second component `true`) when
already active, leaving the world unchanged; otherwise sets the active flag
and either arms the first-invocation timer (numeric delay given, unref'd when
configured) or executes immediately (delay omitted). -/
def start (w : World) (delay : Option Int) : World × Bool :=
  if w.active = true then
    (w, true)
  else
    let w1 := { w with active := true }
    match delay with
    | some d =>
        let p := setTimeoutW w1 TimerKind.nextInvocation d
        let w2 := { p.1 with nextHandlerId := some p.2 }
        ((if w2.unref then unrefTimer w2 p.2 else w2), false)
    | none => (execute w1, false)

/-- `Reissue.prototype.stop`: if inactive, or active but not inside the user
function, stop immediately; otherwise record the stop request by clearing the
active flag, to be honoured when the continuation fires. -/
def stop (w : World) : World :=
  if w.active = false then
    stopInternal w
  else
    if w.inUserFunc = false then
      stopInternal w
    else
      { w with active := false }

/-- A timer fires: it leaves the armed set, then runs its callback —
`_execute` for a next-invocation timer, `_onTimeout` for a stall timer. -/
def fire (w : World) (t : Timer) : World :=
  let w1 := { w with timers := w.timers.filter (fun u => u.id != t.id) }
  match t.kind with
  | TimerKind.nextInvocation => execute w1
  | TimerKind.stall => onTimeout w1

/-- One step of the event-driven system: time passes, a caller invokes
`start` or `stop`, a due timer fires, or the running task invokes its
completion continuation. -/
inductive Step : World → World → Prop where
  | tick (w : World) (d : Int) (h : 0 ≤ d) :
      Step w { w with now := w.now + d }
  | startCall (w : World) (delay : Option Int) :
      Step w (start w delay).1
  | stopCall (w : World) :
      Step w (stop w)
  | fireTimer (w : World) (t : Timer) (hmem : t ∈ w.timers)
      (hdue : t.dueAt ≤ w.now) :
      Step w (fire w t)
  | doneCall (w : World) (err : JSValue) (h : w.inUserFunc = true) :
      Step w (done w err)

/-- Worlds reachable from a freshly created instance. -/
def Reachable (o : Opts) (t0 : Int) (w : World) : Prop :=
  Relation.ReflTransGen Step (create o t0) w

end Reissue

namespace Reissue

/-- Recognizer for `error` events in the ghost log. -/
def isErrorEvent : Event → Bool
  | Event.error _ => true
  | _ => false

/-- When the continuation fires with no stop requested (`_active === true`),
`_done` arms exactly one new next-invocation timer, appended last, whose
handle is recorded in `_nextHandlerId` and whose delay follows the catch-up
rule of the source. -/
lemma done_arms_next (w : World) (err : JSValue) (h : w.active = true) :
    ∃ t : Timer,
      (done w err).timers.getLast? = some t ∧
      (done w err).nextHandlerId = some t.id ∧
      t.kind = TimerKind.nextInvocation ∧
      t.delay = (if w.now - w.startTime ≥ w.intervalFn (w.now - w.startTime) then 0
                 else w.intervalFn (w.now - w.startTime) - (w.now - w.startTime)) := by
  obtain ⟨ifn, tms, unr, act, iuf, st, nh, th, tl, nid, nw, evs, ec⟩ := w
  simp only at h
  subst h
  cases herr : truthy err <;> rcases th with _ | tid <;> cases unr <;>
    simp only [done, emit, clearTimeoutW, setTimeoutW, unrefTimer, herr,
      Bool.false_eq_true, if_false, if_true, List.map_append, List.map_cons,
      List.map_nil, if_pos rfl] <;>
    exact ⟨_, List.getLast?_concat _, rfl, rfl, rfl⟩

/-- Events appended by `_done` when no stop was requested: just the re-emitted
error, when truthy. -/
lemma done_events_active (w : World) (err : JSValue) (h : w.active = true) :
    (done w err).events =
      w.events ++ (if truthy err then [Event.error err] else []) := by
  obtain ⟨ifn, tms, unr, act, iuf, st, nh, th, tl, nid, nw, evs, ec⟩ := w
  simp only at h
  subst h
  cases herr : truthy err <;> rcases th with _ | tid <;> cases unr <;>
    simp [done, emit, clearTimeoutW, setTimeoutW, unrefTimer, herr]

/-- Events appended by `_done` when a stop was requested (`_active === false`):
the re-emitted error, when truthy, then exactly one `stop`. -/
lemma done_events_inactive (w : World) (err : JSValue) (h : w.active = false) :
    (done w err).events =
      w.events ++ (if truthy err then [Event.error err] else []) ++ [Event.stop] := by
  obtain ⟨ifn, tms, unr, act, iuf, st, nh, th, tl, nid, nw, evs, ec⟩ := w
  simp only at h
  subst h
  cases herr : truthy err <;> rcases th with _ | tid <;>
    simp [done, emit, stopInternal, clearTimeoutW, setTimeoutW, unrefTimer, herr]

/-- A falsy failure value is handled exactly like `undefined` by `_done`. -/
lemma done_falsy_eq (w : World) (err : JSValue) (h : truthy err = false) :
    done w err = done w JSValue.undef := by
  have h2 : truthy JSValue.undef = false := rfl
  simp only [done, h, h2, Bool.false_eq_true, if_false]

/-- With a falsy failure value, `_done` adds no `error` event to the log. -/
lemma done_countP_error_falsy (w : World) (err : JSValue) (h : truthy err = false) :
    (done w err).events.countP isErrorEvent = w.events.countP isErrorEvent := by
  obtain ⟨ifn, tms, unr, act, iuf, st, nh, th, tl, nid, nw, evs, ec⟩ := w
  rcases act <;> rcases th with _ | tid <;> cases unr <;>
    simp [done, emit, stopInternal, clearTimeoutW, setTimeoutW, unrefTimer, h,
      List.countP_append, isErrorEvent]

/-- C4: for every completed invocation that continues (no stop requested), the
delay armed for the next invocation is `0` when the elapsed time `e` satisfies
`e ≥ intervalFn e`, and `intervalFn e − e` otherwise; it is never negative. -/
theorem C4_catchup_delay (w : World) (err : JSValue) (h : w.active = true) :
    ∃ t : Timer,
      (done w err).timers.getLast? = some t ∧
      t.kind = TimerKind.nextInvocation ∧
      t.delay = (if w.now - w.startTime ≥ w.intervalFn (w.now - w.startTime) then 0
                 else w.intervalFn (w.now - w.startTime) - (w.now - w.startTime)) ∧
      0 ≤ t.delay := by
  obtain ⟨t, h1, _, h3, h4⟩ := done_arms_next w err h
  refine ⟨t, h1, h3, h4, ?_⟩
  rw [h4]
  split <;> omega

/-- Witness for C4 at a concrete input: a world mid-invocation with elapsed
time 30 and constant interval 100 arms a delay-70 timer. -/
theorem C4_catchup_delay_witness :
    (done { (start (create ⟨IntervalOpt.num 100, none, none⟩ 0) none).1 with
        now := (30 : Int) } JSValue.undef).timers.getLast?
      = some ⟨0, TimerKind.nextInvocation, 70, 100, false⟩ := by
  have h := C4_catchup_delay
    { (start (create ⟨IntervalOpt.num 100, none, none⟩ 0) none).1 with now := (30 : Int) }
    JSValue.undef rfl
  decide

/-- C6: a truthy failure value handed to the continuation with no stop
requested is re-published as exactly one `error` event carrying that value
(never thrown — `_done` is a total function and raises nothing), and the next
invocation is still armed normally under the catch-up rule. -/
theorem C6_error_published_and_scheduling_continues (w : World) (err : JSValue)
    (hact : w.active = true) (herr : truthy err = true) :
    (done w err).events = w.events ++ [Event.error err] ∧
    ∃ t : Timer,
      (done w err).timers.getLast? = some t ∧
      (done w err).nextHandlerId = some t.id ∧
      t.kind = TimerKind.nextInvocation ∧
      t.delay = (if w.now - w.startTime ≥ w.intervalFn (w.now - w.startTime) then 0
                 else w.intervalFn (w.now - w.startTime) - (w.now - w.startTime)) := by
  refine ⟨?_, done_arms_next w err hact⟩
  rw [done_events_active w err hact, herr]
  simp

/-- Witness for C6 at a concrete input: the error `"boom"` on an invocation
with elapsed time 30 and interval 100 is published once and a delay-70
next-invocation timer is armed. -/
theorem C6_error_published_and_scheduling_continues_witness :
    ((done { (start (create ⟨IntervalOpt.num 100, none, none⟩ 0) none).1 with
        now := (30 : Int) } (JSValue.str "boom")).events
      = [Event.error (JSValue.str "boom")] ∧
     (done { (start (create ⟨IntervalOpt.num 100, none, none⟩ 0) none).1 with
        now := (30 : Int) } (JSValue.str "boom")).timers.getLast?
      = some ⟨0, TimerKind.nextInvocation, 70, 100, false⟩ ∧
     (done { (start (create ⟨IntervalOpt.num 100, none, none⟩ 0) none).1 with
        now := (30 : Int) } (JSValue.str "boom")).nextHandlerId = some 0) := by
  have h := C6_error_published_and_scheduling_continues
    { (start (create ⟨IntervalOpt.num 100, none, none⟩ 0) none).1 with now := (30 : Int) }
    (JSValue.str "boom") rfl rfl
  refine ⟨?_, by decide, by decide⟩
  rw [h.1]
  rfl

/-- C9: a falsy failure value (`0`, `""`, `false`, `null`, `undefined`)
publishes no `error` event; the completion is processed exactly as a success
(identically to calling the continuation with `undefined`). -/
theorem C9_falsy_error_not_published (w : World) (err : JSValue)
    (h : truthy err = false) :
    done w err = done w JSValue.undef ∧
    (done w err).events.countP isErrorEvent = w.events.countP isErrorEvent :=
  ⟨done_falsy_eq w err h, done_countP_error_falsy w err h⟩

/-- Witness for C9 at a concrete input: the falsy failure value `0` on a
running invocation. -/
theorem C9_falsy_error_not_published_witness :
    (let w := (start (create ⟨IntervalOpt.num 100, none, none⟩ 0) none).1
     truthy (JSValue.num 0) = false ∧
     (done w (JSValue.num 0) = done w JSValue.undef ∧
      (done w (JSValue.num 0)).events.countP isErrorEvent
        = w.events.countP isErrorEvent)) :=
  ⟨rfl, C9_falsy_error_not_published _ (JSValue.num 0) rfl⟩

end Reissue

namespace Reissue

theorem C1_counterexample :
    (let w1 := (start (create ⟨IntervalOpt.num 100, none, none⟩ 0) none).1
     let w4 := done (stop (stop w1)) JSValue.undef
     w1.active = true ∧ w1.inUserFunc = true ∧
     w4.events.count Event.stop = 2) := by
  decide

theorem C1_amended_stop_publications (w : World) (err : JSValue)
    (h1 : w.active = true) (h2 : w.inUserFunc = true) :
    ((stop w).events = w.events ∧ (stop w).active = false ∧
      (stop w).inUserFunc = true) ∧
    (∀ v : World, v.active = false → v.inUserFunc = true →
      (stop v).events = v.events ++ [Event.stop] ∧
      (stop v).active = false ∧ (stop v).inUserFunc = true) ∧
    (∀ v : World, v.active = false →
      (done v err).events.count Event.stop = v.events.count Event.stop + 1) := by
  refine ⟨?_, ?_, ?_⟩
  · simp [stop, h1, h2]
  · intro v hv1 hv2
    obtain ⟨ifn, tms, unr, act, iuf, st, nh, th, tl, nid, nw, evs, ec⟩ := v
    simp only at hv1 hv2
    subst hv1; subst hv2
    rcases nh with _ | hid <;>
      simp [stop, stopInternal, clearTimeoutW, emit]
  · intro v hv
    rw [done_events_inactive v err hv]
    cases truthy err <;>
      simp [List.count_append]

theorem C2_stop_from_pending_leaves_active :
    (let w0 := create ⟨IntervalOpt.num 100, none, none⟩ 0
     let w1 := (start w0 (some 300)).1
     let w2 := stop w1
     (start w0 (some 300)).2 = false ∧
     w1.timers.length = 1 ∧ w1.active = true ∧ w1.inUserFunc = false ∧
     w2.timers = [] ∧ w2.events = [Event.stop] ∧
     w2.active = true ∧ (start w2 none).2 = true) := by
  decide

theorem C3_counterexample :
    (let w1 := (start (create ⟨IntervalOpt.num 100, some 50, none⟩ 0) none).1
     let w2 := stop w1
     let w3 : World := { w2 with now := 60 }
     let t : Timer := ⟨0, TimerKind.stall, 50, 50, false⟩
     w2.active = false ∧ w2.inUserFunc = true ∧
     t ∈ w3.timers ∧ t.dueAt ≤ w3.now ∧
     (fire w3 t).events.count Event.timeout = 0 ∧ (fire w3 t).events = []) := by
  decide

theorem C3_amended_timeout_suppressed_after_stop (w : World)
    (h1 : w.active = true) (h2 : w.inUserFunc = true) :
    (stop w).timers = w.timers ∧
    (stop w).active = false ∧
    ∀ t ∈ (stop w).timers, t.kind = TimerKind.stall →
      (fire (stop w) t).events = (stop w).events := by
  have hs : stop w = { w with active := false } := by
    simp [stop, h1, h2]
  refine ⟨by rw [hs], by rw [hs], ?_⟩
  intro t _ hk
  rw [hs]
  simp [fire, hk, onTimeout]

theorem C3_amended_witness :
    (let w := (start (create ⟨IntervalOpt.num 100, some 50, none⟩ 0) none).1
     w.active = true ∧ w.inUserFunc = true ∧
     (stop w).timers = w.timers ∧ (stop w).active = false ∧
     (fire (stop w) ⟨0, TimerKind.stall, 50, 50, false⟩).events = (stop w).events) := by
  have h := C3_amended_timeout_suppressed_after_stop
    (start (create ⟨IntervalOpt.num 100, some 50, none⟩ 0) none).1 rfl rfl
  exact ⟨rfl, rfl, h.1, h.2.1, h.2.2 _ (by decide) rfl⟩

theorem C5_counterexample :
    (let w2 := stop (start (create ⟨IntervalOpt.num 100, none, none⟩ 0) none).1
     w2.inUserFunc = true ∧ w2.active = false ∧
     (start w2 none).2 = false ∧ (start w2 none).1.active = true) := by
  decide

theorem C5_amended_start_guard (w : World) (delay : Option Int) :
    (w.active = true → start w delay = (w, true)) ∧
    (w.active = false → w.inUserFunc = true →
      (start w delay).2 = false ∧ (start w delay).1.active = true) := by
  constructor
  · intro h
    simp [start, h]
  · intro h1 h2
    obtain ⟨ifn, tms, unr, act, iuf, st, nh, th, tl, nid, nw, evs, ec⟩ := w
    simp only at h1
    subst h1
    rcases delay with _ | d <;> rcases tms with _ | ms <;> cases unr <;>
      simp [start, execute, setTimeoutW, unrefTimer]

theorem C5_amended_start_guard_witness :
    (let wE := (start (create ⟨IntervalOpt.num 100, none, none⟩ 0) none).1
     let wS := stop wE
     (wE.active = true ∧ start wE none = (wE, true)) ∧
     (wS.active = false ∧ wS.inUserFunc = true ∧
       ((start wS none).2 = false ∧ (start wS none).1.active = true))) :=
  ⟨⟨rfl, (C5_amended_start_guard _ none).1 rfl⟩,
   ⟨rfl, rfl, (C5_amended_start_guard _ none).2 rfl rfl⟩⟩

theorem C1_amended_stop_publications_witness :
    (let w1 := (start (create ⟨IntervalOpt.num 100, none, none⟩ 0) none).1
     let w2 := stop w1
     w1.active = true ∧ w1.inUserFunc = true ∧
     (stop w1).events = w1.events ∧
     (stop w2).events = w2.events ++ [Event.stop] ∧
     (done w2 JSValue.undef).events.count Event.stop
        = w2.events.count Event.stop + 1) := by
  have h := C1_amended_stop_publications
    (start (create ⟨IntervalOpt.num 100, none, none⟩ 0) none).1 JSValue.undef rfl rfl
  exact ⟨rfl, rfl, h.1.1, (h.2.1 _ rfl rfl).1, h.2.2 _ rfl⟩

end Reissue

namespace Reissue

/-- All armed timers are detached (`.unref()` was called on them). -/
def AllDetached (l : List Timer) : Prop := ∀ t ∈ l, t.unrefd = true

lemma allDetached_filter {l : List Timer} (p : Timer → Bool) (h : AllDetached l) :
    AllDetached (l.filter p) :=
  fun t ht => h t (List.mem_filter.mp ht).1

/-- Marking the fresh timer detached by id, with the rest of the list already
detached, keeps every armed timer detached. -/
lemma allDetached_arm (l : List Timer) (nid : Nat) (c : Timer)
    (hc : c.unrefd = true) (h : AllDetached l) :
    AllDetached (l.map (fun t => if t.id = nid then { t with unrefd := true } else t)
      ++ [c]) := by
  intro t ht
  rcases List.mem_append.mp ht with ht | ht
  · rcases List.mem_map.mp ht with ⟨u, hu, rfl⟩
    by_cases hid : u.id = nid <;> simp [hid, h u hu]
  · rcases List.mem_singleton.mp ht with rfl
    exact hc

lemma execute_allDetached (w : World) (hu : w.unref = true)
    (h : AllDetached w.timers) : AllDetached (execute w).timers := by
  obtain ⟨ifn, tms, unr, act, iuf, st, nh, th, tl, nid, nw, evs, ec⟩ := w
  simp only at hu h
  subst hu
  rcases tms with _ | ms
  · exact h
  · simp only [execute, setTimeoutW, unrefTimer, if_true, List.map_append,
      List.map_cons, List.map_nil, if_pos rfl]
    exact allDetached_arm tl nid _ rfl h

lemma stopInternal_allDetached (w : World) (h : AllDetached w.timers) :
    AllDetached (stopInternal w).timers := by
  obtain ⟨ifn, tms, unr, act, iuf, st, nh, th, tl, nid, nw, evs, ec⟩ := w
  rcases nh with _ | hid <;>
    simp only [stopInternal, clearTimeoutW, emit] <;>
    first
      | exact h
      | exact allDetached_filter _ h

lemma done_allDetached (w : World) (err : JSValue) (hu : w.unref = true)
    (h : AllDetached w.timers) : AllDetached (done w err).timers := by
  obtain ⟨ifn, tms, unr, act, iuf, st, nh, th, tl, nid, nw, evs, ec⟩ := w
  simp only at hu h
  subst hu
  cases herr : truthy err <;> rcases th with _ | tid <;> rcases act <;>
    simp [done, emit, stopInternal, clearTimeoutW, setTimeoutW, unrefTimer, herr] <;>
    first
      | exact h
      | exact allDetached_filter _ h
      | exact allDetached_arm tl nid _ rfl h
      | exact allDetached_arm _ nid _ rfl (allDetached_filter _ h)

lemma start_allDetached (w : World) (delay : Option Int) (hu : w.unref = true)
    (h : AllDetached w.timers) : AllDetached (start w delay).1.timers := by
  obtain ⟨ifn, tms, unr, act, iuf, st, nh, th, tl, nid, nw, evs, ec⟩ := w
  simp only at hu h
  subst hu
  rcases act
  · rcases delay with _ | d
    · simpa [start] using
        execute_allDetached ⟨ifn, tms, true, true, iuf, st, nh, th, tl, nid, nw, evs, ec⟩ rfl h
    · simp only [start, setTimeoutW, unrefTimer, if_true, Bool.false_eq_true,
        if_false, List.map_append, List.map_cons, List.map_nil, if_pos rfl]
      exact allDetached_arm tl nid _ rfl h
  · simpa [start] using h

lemma stop_allDetached (w : World) (h : AllDetached w.timers) :
    AllDetached (stop w).timers := by
  unfold stop
  split
  · exact stopInternal_allDetached w h
  · split
    · exact stopInternal_allDetached w h
    · exact h

lemma fire_allDetached (w : World) (t : Timer) (hu : w.unref = true)
    (h : AllDetached w.timers) : AllDetached (fire w t).timers := by
  rcases t with ⟨tid, tk, td, tdu, tu⟩
  rcases tk <;> simp only [fire]
  · exact execute_allDetached _ (by simpa using hu) (allDetached_filter _ h)
  · unfold onTimeout
    split
    · exact allDetached_filter _ h
    · exact allDetached_filter _ h

end Reissue

namespace Reissue

lemma execute_unref (w : World) : (execute w).unref = w.unref := by
  obtain ⟨ifn, tms, unr, act, iuf, st, nh, th, tl, nid, nw, evs, ec⟩ := w
  rcases tms with _ | ms <;> cases unr <;>
    simp [execute, setTimeoutW, unrefTimer]

lemma stopInternal_unref (w : World) : (stopInternal w).unref = w.unref := by
  obtain ⟨ifn, tms, unr, act, iuf, st, nh, th, tl, nid, nw, evs, ec⟩ := w
  rcases nh with _ | hid <;> simp [stopInternal, clearTimeoutW, emit]

lemma done_unref (w : World) (err : JSValue) : (done w err).unref = w.unref := by
  obtain ⟨ifn, tms, unr, act, iuf, st, nh, th, tl, nid, nw, evs, ec⟩ := w
  cases herr : truthy err <;> rcases th with _ | tid <;> rcases act <;> cases unr <;>
    simp [done, emit, stopInternal, clearTimeoutW, setTimeoutW, unrefTimer, herr]

lemma start_unref (w : World) (delay : Option Int) :
    (start w delay).1.unref = w.unref := by
  obtain ⟨ifn, tms, unr, act, iuf, st, nh, th, tl, nid, nw, evs, ec⟩ := w
  rcases act
  · rcases delay with _ | d
    · simpa [start] using
        execute_unref ⟨ifn, tms, unr, true, iuf, st, nh, th, tl, nid, nw, evs, ec⟩
    · cases unr <;> simp [start, setTimeoutW, unrefTimer]
  · simp [start]

lemma stop_unref (w : World) : (stop w).unref = w.unref := by
  unfold stop
  split
  · exact stopInternal_unref w
  · split
    · exact stopInternal_unref w
    · rfl

lemma fire_unref (w : World) (t : Timer) : (fire w t).unref = w.unref := by
  rcases t with ⟨tid, tk, td, tdu, tu⟩
  rcases tk <;> simp only [fire]
  · exact execute_unref _
  · unfold onTimeout
    split <;> rfl

/-- Every event-loop step preserves "the detachable option is set and every
armed timer is detached". -/
lemma step_detached (w w' : World) (s : Step w w')
    (hu : w.unref = true) (h : AllDetached w.timers) :
    w'.unref = true ∧ AllDetached w'.timers := by
  cases s with
  | tick d hd => exact ⟨hu, h⟩
  | startCall delay =>
      exact ⟨(start_unref w delay).trans hu, start_allDetached w delay hu h⟩
  | stopCall =>
      exact ⟨(stop_unref w).trans hu, stop_allDetached w h⟩
  | fireTimer t hmem hdue =>
      exact ⟨(fire_unref w t).trans hu, fire_allDetached w t hu h⟩
  | doneCall err hiuf =>
      exact ⟨(done_unref w err).trans hu, done_allDetached w err hu h⟩

/-- C7: when the detachable (`unref`) option is set, every timer the scheduler
ever arms — initial start-delay timer, inter-invocation delay timer, and stall
timer — is in detached (unref'd) mode, in every reachable world. -/
theorem C7_detachable_invariant (o : Opts) (t0 : Int) (w : World)
    (ho : o.unref = some true) (hr : Reachable o t0 w) :
    ∀ t ∈ w.timers, t.unrefd = true := by
  have key : w.unref = true ∧ AllDetached w.timers := by
    induction hr with
    | refl =>
        refine ⟨by simp [create, ho], ?_⟩
        intro t ht
        simp [create] at ht
    | tail _ hstep ih => exact step_detached _ _ hstep ih.1 ih.2
  exact key.2

/-- Witness for C7: a detachable instance started with a 5 ms delay has armed
one timer, and it is unref'd. -/
theorem C7_detachable_invariant_witness :
    (start (create ⟨IntervalOpt.num 100, some 50, some true⟩ 0) (some 5)).1.timers.all
      (fun t => t.unrefd) = true := by
  have h := C7_detachable_invariant ⟨IntervalOpt.num 100, some 50, some true⟩ 0
    (start (create ⟨IntervalOpt.num 100, some 50, some true⟩ 0) (some 5)).1 rfl
    (Relation.ReflTransGen.single (Step.startCall _ (some 5)))
  exact List.all_eq_true.mpr (fun t ht => h t ht)

end Reissue

namespace Reissue

/-- No armed timer is a stall timer. -/
def NoStall (l : List Timer) : Prop := ∀ t ∈ l, t.kind ≠ TimerKind.stall

lemma noStall_filter {l : List Timer} (p : Timer → Bool) (h : NoStall l) :
    NoStall (l.filter p) :=
  fun t ht => h t (List.mem_filter.mp ht).1

lemma noStall_append_single {l : List Timer} {c : Timer}
    (h : NoStall l) (hc : c.kind ≠ TimerKind.stall) : NoStall (l ++ [c]) := by
  intro t ht
  rcases List.mem_append.mp ht with ht | ht
  · exact h t ht
  · rcases List.mem_singleton.mp ht with rfl
    exact hc

lemma noStall_map_unref {l : List Timer} (nid : Nat) (h : NoStall l) :
    NoStall (l.map (fun t => if t.id = nid then { t with unrefd := true } else t)) := by
  intro t ht
  rcases List.mem_map.mp ht with ⟨u, hu, rfl⟩
  by_cases hid : u.id = nid <;> simp [hid] <;> exact h u hu

lemma execute_none_timers (w : World) (hn : w.timeoutMs = none) :
    (execute w).timers = w.timers := by
  obtain ⟨ifn, tms, unr, act, iuf, st, nh, th, tl, nid, nw, evs, ec⟩ := w
  simp only at hn
  subst hn
  simp [execute]

lemma execute_events (w : World) : (execute w).events = w.events := by
  obtain ⟨ifn, tms, unr, act, iuf, st, nh, th, tl, nid, nw, evs, ec⟩ := w
  rcases tms with _ | ms <;> cases unr <;>
    simp [execute, setTimeoutW, unrefTimer]

lemma execute_timeoutMs (w : World) : (execute w).timeoutMs = w.timeoutMs := by
  obtain ⟨ifn, tms, unr, act, iuf, st, nh, th, tl, nid, nw, evs, ec⟩ := w
  rcases tms with _ | ms <;> cases unr <;>
    simp [execute, setTimeoutW, unrefTimer]

lemma stopInternal_timers (w : World) :
    (stopInternal w).timers = w.timers ∨
    ∃ id, (stopInternal w).timers = w.timers.filter (fun t => t.id != id) := by
  obtain ⟨ifn, tms, unr, act, iuf, st, nh, th, tl, nid, nw, evs, ec⟩ := w
  rcases nh with _ | hid
  · left; simp [stopInternal, emit]
  · right; exact ⟨hid, by simp [stopInternal, clearTimeoutW, emit]⟩

lemma stopInternal_events (w : World) :
    (stopInternal w).events = w.events ++ [Event.stop] := by
  obtain ⟨ifn, tms, unr, act, iuf, st, nh, th, tl, nid, nw, evs, ec⟩ := w
  rcases nh with _ | hid <;> simp [stopInternal, clearTimeoutW, emit]

lemma stopInternal_timeoutMs (w : World) :
    (stopInternal w).timeoutMs = w.timeoutMs := by
  obtain ⟨ifn, tms, unr, act, iuf, st, nh, th, tl, nid, nw, evs, ec⟩ := w
  rcases nh with _ | hid <;> simp [stopInternal, clearTimeoutW, emit]

lemma stopInternal_noStall (w : World) (h : NoStall w.timers) :
    NoStall (stopInternal w).timers := by
  rcases stopInternal_timers w with he | ⟨id, he⟩ <;> rw [he]
  · exact h
  · exact noStall_filter _ h

lemma done_noStall (w : World) (err : JSValue) (h : NoStall w.timers) :
    NoStall (done w err).timers := by
  obtain ⟨ifn, tms, unr, act, iuf, st, nh, th, tl, nid, nw, evs, ec⟩ := w
  cases herr : truthy err <;> rcases th with _ | tid <;> rcases act <;> cases unr <;>
    simp [done, emit, stopInternal, clearTimeoutW, setTimeoutW, unrefTimer, herr] <;>
    first
      | exact h
      | exact noStall_filter _ h
      | exact noStall_append_single h (by simp)
      | exact noStall_append_single (noStall_filter _ h) (by simp)
      | exact noStall_append_single (noStall_map_unref _ h) (by simp)
      | exact noStall_append_single (noStall_map_unref _ (noStall_filter _ h)) (by simp)

lemma done_timeoutMs (w : World) (err : JSValue) :
    (done w err).timeoutMs = w.timeoutMs := by
  obtain ⟨ifn, tms, unr, act, iuf, st, nh, th, tl, nid, nw, evs, ec⟩ := w
  cases herr : truthy err <;> rcases th with _ | tid <;> rcases act <;> cases unr <;>
    simp [done, emit, stopInternal, clearTimeoutW, setTimeoutW, unrefTimer, herr]

lemma start_noStall (w : World) (delay : Option Int) (hn : w.timeoutMs = none)
    (h : NoStall w.timers) : NoStall (start w delay).1.timers := by
  obtain ⟨ifn, tms, unr, act, iuf, st, nh, th, tl, nid, nw, evs, ec⟩ := w
  simp only at hn
  subst hn
  rcases act
  · rcases delay with _ | d
    · rw [start, if_neg (by simp)]
      simpa [execute] using h
    · cases unr <;>
        simp [start, setTimeoutW, unrefTimer] <;>
        first
          | exact noStall_append_single h (by simp)
          | exact noStall_append_single (noStall_map_unref _ h) (by simp)
  · simpa [start] using h

lemma start_events (w : World) (delay : Option Int) :
    (start w delay).1.events = w.events := by
  obtain ⟨ifn, tms, unr, act, iuf, st, nh, th, tl, nid, nw, evs, ec⟩ := w
  rcases act
  · rcases delay with _ | d
    · simpa [start] using
        execute_events ⟨ifn, tms, unr, true, iuf, st, nh, th, tl, nid, nw, evs, ec⟩
    · cases unr <;> simp [start, setTimeoutW, unrefTimer]
  · simp [start]

lemma start_timeoutMs (w : World) (delay : Option Int) :
    (start w delay).1.timeoutMs = w.timeoutMs := by
  obtain ⟨ifn, tms, unr, act, iuf, st, nh, th, tl, nid, nw, evs, ec⟩ := w
  rcases act
  · rcases delay with _ | d
    · simpa [start] using
        execute_timeoutMs ⟨ifn, tms, unr, true, iuf, st, nh, th, tl, nid, nw, evs, ec⟩
    · cases unr <;> simp [start, setTimeoutW, unrefTimer]
  · simp [start]

lemma stop_noStall (w : World) (h : NoStall w.timers) :
    NoStall (stop w).timers := by
  unfold stop
  split
  · exact stopInternal_noStall w h
  · split
    · exact stopInternal_noStall w h
    · exact h

lemma stop_no_timeout_event (w : World) (h : Event.timeout ∉ w.events) :
    Event.timeout ∉ (stop w).events := by
  unfold stop
  split
  · rw [stopInternal_events]; simp [h]
  · split
    · rw [stopInternal_events]; simp [h]
    · exact h

lemma stop_timeoutMs (w : World) : (stop w).timeoutMs = w.timeoutMs := by
  unfold stop
  split
  · exact stopInternal_timeoutMs w
  · split
    · exact stopInternal_timeoutMs w
    · rfl

/-- One step of the system, from a world with no stall threshold, no armed
stall timer and no published `timeout`, cannot arm a stall timer or publish
`timeout`. -/
lemma step_nostall (w w' : World) (s : Step w w') (hn : w.timeoutMs = none)
    (h1 : NoStall w.timers) (h2 : Event.timeout ∉ w.events) :
    w'.timeoutMs = none ∧ NoStall w'.timers ∧ Event.timeout ∉ w'.events := by
  cases s with
  | tick d hd => exact ⟨hn, h1, h2⟩
  | startCall delay =>
      exact ⟨(start_timeoutMs w delay).trans hn, start_noStall w delay hn h1,
        (start_events w delay).symm ▸ h2⟩
  | stopCall =>
      exact ⟨(stop_timeoutMs w).trans hn, stop_noStall w h1, stop_no_timeout_event w h2⟩
  | fireTimer t hmem hdue =>
      refine ⟨?_, ?_, ?_⟩
      · rcases t with ⟨tid, tk, td, tdu, tu⟩
        rcases tk
        · simp only [fire]
          exact (execute_timeoutMs _).trans hn
        · exact absurd rfl (h1 _ hmem)
      · rcases t with ⟨tid, tk, td, tdu, tu⟩
        rcases tk
        · simp only [fire]
          rw [execute_none_timers _ (by simpa using hn)]
          exact noStall_filter _ h1
        · exact absurd rfl (h1 _ hmem)
      · rcases t with ⟨tid, tk, td, tdu, tu⟩
        rcases tk
        · simp only [fire]
          rw [execute_events]
          exact h2
        · exact absurd rfl (h1 _ hmem)
  | doneCall err hiuf =>
      refine ⟨(done_timeoutMs w err).trans hn, done_noStall w err h1, ?_⟩
      rcases hact : w.active
      · rw [done_events_inactive w err hact]
        cases truthy err <;> simp [h2]
      · rw [done_events_active w err hact]
        cases truthy err <;> simp [h2]

end Reissue

namespace Reissue

/-- C10: configuring the stall threshold as `0` yields the very same initial
world as omitting the option (`opts.timeout || null` nulls it out), and in
every reachable world no stall timer is armed and no `timeout` event has ever
been published. -/
theorem C10_zero_timeout_disables_stall_monitor (i : IntervalOpt) (u : Option Bool)
    (t0 : Int) (w : World) (hr : Reachable ⟨i, some 0, u⟩ t0 w) :
    create ⟨i, some 0, u⟩ t0 = create ⟨i, none, u⟩ t0 ∧
    (∀ t ∈ w.timers, t.kind ≠ TimerKind.stall) ∧
    Event.timeout ∉ w.events := by
  refine ⟨rfl, ?_⟩
  have key : w.timeoutMs = none ∧ NoStall w.timers ∧ Event.timeout ∉ w.events := by
    induction hr with
    | refl =>
        refine ⟨rfl, ?_, by simp [create]⟩
        intro t ht
        simp [create] at ht
    | tail _ hstep ih => exact step_nostall _ _ hstep ih.1 ih.2.1 ih.2.2
  exact ⟨key.2.1, key.2.2⟩

/-- Witness for C10: an instance created with `timeout: 0` and started with no
delay (one invocation begun) has no stall timer armed and no `timeout` event,
and its initial world equals that of an instance with no `timeout` option. -/
theorem C10_zero_timeout_disables_stall_monitor_witness :
    ((start (create ⟨IntervalOpt.num 100, some 0, none⟩ 0) none).1.timers.all
        (fun t => t.kind != TimerKind.stall) = true ∧
      Event.timeout ∉ (start (create ⟨IntervalOpt.num 100, some 0, none⟩ 0) none).1.events ∧
      create ⟨IntervalOpt.num 100, some 0, none⟩ 0
        = create ⟨IntervalOpt.num 100, none, none⟩ 0) := by
  have h := C10_zero_timeout_disables_stall_monitor (IntervalOpt.num 100) none 0
    (start (create ⟨IntervalOpt.num 100, some 0, none⟩ 0) none).1
    (Relation.ReflTransGen.single (Step.startCall _ none))
  refine ⟨?_, h.2.2, h.1⟩
  exact List.all_eq_true.mpr (fun t ht => by simpa using h.2.1 t ht)

end Reissue

namespace Reissue

lemma stopInternal_flags (w : World) :
    (stopInternal w).inUserFunc = w.inUserFunc ∧
    (stopInternal w).active = w.active ∧
    (stopInternal w).execCount = w.execCount := by
  obtain ⟨ifn, tms, unr, act, iuf, st, nh, th, tl, nid, nw, evs, ec⟩ := w
  rcases nh with _ | hid <;> simp [stopInternal, clearTimeoutW, emit]

lemma stopInternal_timers_nil (w : World) (h : w.timers = []) :
    (stopInternal w).timers = [] := by
  rcases stopInternal_timers w with he | ⟨id, he⟩ <;> rw [he, h]
  simp

/-- From a world with no armed timers, no running task, and the active flag
still set, no step can ever begin an invocation: the state is inert except
for clock ticks and the always-publishing `stop()`. -/
lemma step_preserves_stopped (v v' : World) (s : Step v v')
    (h : v.timers = [] ∧ v.inUserFunc = false ∧ v.active = true ∧ v.execCount = 0) :
    v'.timers = [] ∧ v'.inUserFunc = false ∧ v'.active = true ∧ v'.execCount = 0 := by
  obtain ⟨h1, h2, h3, h4⟩ := h
  cases s with
  | tick d hd => exact ⟨h1, h2, h3, h4⟩
  | startCall delay =>
      rw [start, if_pos h3]
      exact ⟨h1, h2, h3, h4⟩
  | stopCall =>
      have hs : stop v = stopInternal v := by
        rw [stop, if_neg (by simp [h3]), if_pos h2]
      rw [hs]
      exact ⟨stopInternal_timers_nil v h1,
        (stopInternal_flags v).1.trans h2,
        (stopInternal_flags v).2.1.trans h3,
        (stopInternal_flags v).2.2.trans h4⟩
  | fireTimer t hmem hdue =>
      rw [h1] at hmem
      cases hmem
  | doneCall err hiuf =>
      rw [h2] at hiuf
      cases hiuf

/-- C8: `start()` with the delay omitted begins the first invocation as part
of the same call (one invocation has begun, no next-invocation timer is
armed), whereas `start(0)` arms a next-invocation timer with delay 0 and
begins nothing; a `stop()` issued immediately after `start(0)` cancels that
timer, and from then on no invocation can ever occur. -/
theorem C8_no_delay_vs_delay_zero (o : Opts) (t0 : Int) :
    ((start (create o t0) none).2 = false ∧
     (start (create o t0) none).1.execCount = 1 ∧
     (start (create o t0) none).1.inUserFunc = true ∧
     (∀ t ∈ (start (create o t0) none).1.timers, t.kind ≠ TimerKind.nextInvocation)) ∧
    ((start (create o t0) (some 0)).2 = false ∧
     (start (create o t0) (some 0)).1.execCount = 0 ∧
     (start (create o t0) (some 0)).1.inUserFunc = false ∧
     (∃ t : Timer, (start (create o t0) (some 0)).1.timers = [t] ∧
        t.kind = TimerKind.nextInvocation ∧ t.delay = 0)) ∧
    ((stop (start (create o t0) (some 0)).1).timers = [] ∧
     (stop (start (create o t0) (some 0)).1).execCount = 0 ∧
     (∀ v : World,
        Relation.ReflTransGen Step (stop (start (create o t0) (some 0)).1) v →
        v.execCount = 0)) := by
  obtain ⟨i, tmo, unr⟩ := o
  have hQ : (stop (start (create ⟨i, tmo, unr⟩ t0) (some 0)).1).timers = [] ∧
      (stop (start (create ⟨i, tmo, unr⟩ t0) (some 0)).1).inUserFunc = false ∧
      (stop (start (create ⟨i, tmo, unr⟩ t0) (some 0)).1).active = true ∧
      (stop (start (create ⟨i, tmo, unr⟩ t0) (some 0)).1).execCount = 0 := by
    cases hb : (unr == some true) <;>
      simp [stop, stopInternal, start, create, setTimeoutW, unrefTimer,
        clearTimeoutW, emit, hb]
  refine ⟨?_, ?_, hQ.1, hQ.2.2.2, ?_⟩
  · rcases htm : jsOrNull tmo with _ | ms <;>
      cases hb : (unr == some true) <;>
        simp [start, create, execute, setTimeoutW, unrefTimer, htm, hb]
  · cases hb : (unr == some true) <;>
      simp [start, create, setTimeoutW, unrefTimer, hb]
  · intro v hv
    have key : v.timers = [] ∧ v.inUserFunc = false ∧ v.active = true ∧
        v.execCount = 0 := by
      induction hv with
      | refl => exact hQ
      | tail _ hstep ih => exact step_preserves_stopped _ _ hstep ih
    exact key.2.2.2

end Reissue

namespace Reissue

/-- Witness for C8 at a concrete configuration: `interval: 100`, no timeout,
no unref, created at time 0. -/
theorem C8_no_delay_vs_delay_zero_witness :
    ((start (create ⟨IntervalOpt.num 100, none, none⟩ 0) none).2 = false ∧
     (start (create ⟨IntervalOpt.num 100, none, none⟩ 0) none).1.execCount = 1 ∧
     (start (create ⟨IntervalOpt.num 100, none, none⟩ 0) (some 0)).1.execCount = 0 ∧
     (stop (start (create ⟨IntervalOpt.num 100, none, none⟩ 0) (some 0)).1).timers = [] ∧
     (stop (start (create ⟨IntervalOpt.num 100, none, none⟩ 0) (some 0)).1).execCount = 0) := by
  have h := C8_no_delay_vs_delay_zero ⟨IntervalOpt.num 100, none, none⟩ 0
  exact ⟨h.1.1, h.1.2.1, h.2.1.2.1, h.2.2.1, h.2.2.2.2 _ Relation.ReflTransGen.refl⟩

end Reissue
